import Mathlib

/-!
Verification of `version_check.py`.

This file gives a shallow embedding of the version-checking tool and settles
the specification claims about it.  Machine integers do not occur in the
source; Python floats only ever arise from `float(...)` applied to unsigned
decimal digit strings, so they are modelled as exact rationals (`ℚ`).
Python strings are modelled as Lean `String`s restricted to ASCII behaviour
of `str.isdigit`, `str.strip` and `\d` (the labels handled by the tool are
ASCII).  External collaborators (HTTP transport, HTML parsing, datetime
parsing) are modelled as oracles supplied by a `World` value, exactly at the
granularity of the queries the source performs, per the specification's
scoping of those as collaborators.
-/

/-! ## Version comparator

The source sorts version labels with
`versions.sort(key=lambda x: [float(n) if n.replace('.', '', 1).isdigit() else 0
for n in re.findall(r'\d+\.\d+|\d+', x)], reverse=True)`
(lines 172-175 and 244-252).  We embed `re.findall`, `str.replace`,
`str.isdigit`, `float`, and Python's stable `list.sort` with `reverse=True`.
-/

/-- Scanner state for `re.findall(r'\d+\.\d+|\d+', x)`: outside any match,
inside the leading digit run, right after a dot following a digit run, or
inside the fractional digit run.  Digit runs are accumulated reversed. -/
inductive ScanState where
  | outside : ScanState
  | intRun (ds : List Char) : ScanState
  | pendingDot (ds : List Char) : ScanState
  | fracRun (ds fs : List Char) : ScanState

/-- Token emitted for a match of the second alternative `\d+`. -/
def emitInt (ds : List Char) : List Char := ds.reverse

/-- Token emitted for a match of the first alternative `\d+\.\d+`. -/
def emitFrac (ds fs : List Char) : List Char := ds.reverse ++ '.' :: fs.reverse

/-- `re.findall(r'\d+\.\d+|\d+', x)` as a left-to-right scan: a maximal
digit run, together with a following dot and second maximal digit run when
one comes directly after, forms one match (the regex first alternative is
tried first and both `\d+` are greedy); a digit run whose dot is not
followed by a digit matches the second alternative alone, and scanning
resumes after the consumed characters. -/
def scanNums : ScanState → List Char → List (List Char)
  | .outside, [] => []
  | .intRun ds, [] => [emitInt ds]
  | .pendingDot ds, [] => [emitInt ds]
  | .fracRun ds fs, [] => [emitFrac ds fs]
  | .outside, c :: r => if c.isDigit then scanNums (.intRun [c]) r else scanNums .outside r
  | .intRun ds, c :: r =>
    if c.isDigit then scanNums (.intRun (c :: ds)) r
    else if c = '.' then scanNums (.pendingDot ds) r
    else emitInt ds :: scanNums .outside r
  | .pendingDot ds, c :: r =>
    if c.isDigit then scanNums (.fracRun ds [c]) r
    else emitInt ds :: scanNums .outside r
  | .fracRun ds fs, c :: r =>
    if c.isDigit then scanNums (.fracRun ds (c :: fs)) r
    else emitFrac ds fs :: scanNums .outside r

def findNums (cs : List Char) : List (List Char) := scanNums .outside cs

/-- Value of an unsigned decimal digit list. -/
def digitsToNat (cs : List Char) : Nat := cs.foldl (fun a c => a * 10 + (c.toNat - 48)) 0

/-- Split a character list at the first dot. -/
def splitDot : List Char → List Char × Option (List Char)
  | [] => ([], none)
  | c :: r => if c = '.' then ([], some r) else ((splitDot r).1.cons c, (splitDot r).2)

/-- Exact value of `float(s)` for an unsigned decimal string
(`digits`, `digits.digits`, `.digits` or `digits.`), as a rational:
`intpart + fracpart / 10 ^ fraclen`. -/
def decimalVal (cs : List Char) : ℚ :=
  match (splitDot cs).2 with
  | none => mkRat (digitsToNat cs) 1
  | some frac =>
    mkRat (digitsToNat (splitDot cs).1 * 10 ^ frac.length + digitsToNat frac) (10 ^ frac.length)

def pyFloatVal (s : String) : ℚ := decimalVal s.toList

/-- `s.replace('.', '', 1)`: remove the first dot, if any. -/
def removeDotOnce : List Char → List Char
  | [] => []
  | c :: r => if c = '.' then r else c :: removeDotOnce r

def pyRemoveDotOnce (s : String) : String := String.mk (removeDotOnce s.toList)

/-- `s.isdigit()`: non-empty and all digits (ASCII model). -/
def pyIsdigit (s : String) : Bool := !s.toList.isEmpty && s.toList.all Char.isDigit

/-- `re.findall(r'\d+\.\d+|\d+', x)` as a list of strings. -/
def pyFindall (x : String) : List String := (findNums x.toList).map String.mk

/-- One component of the sort key:
`float(n) if n.replace('.', '', 1).isdigit() else 0`. -/
def keyComp (n : String) : ℚ :=
  if pyIsdigit (pyRemoveDotOnce n) then pyFloatVal n else 0

/-- The sort-key lambda of lines 172-175 / 247-248: the left-to-right
sequence of numeric components of the regex matches. -/
def sortKey (x : String) : List ℚ := (pyFindall x).map keyComp

/-- Python lexicographic `<` on lists of numbers. -/
def keyLt : List ℚ → List ℚ → Bool
  | [], [] => false
  | [], _ :: _ => true
  | _ :: _, [] => false
  | a :: as, b :: bs => if a < b then true else if b < a then false else keyLt as bs

/-- Stable insertion of `x` into a list already sorted descending by key:
`x` goes before the first element whose key is not greater than `x`'s key
(so among equal keys the earlier original element comes first). -/
def insertDesc (k : α → List ℚ) (x : α) : List α → List α
  | [] => [x]
  | y :: ys => if keyLt (k x) (k y) then y :: insertDesc k x ys else x :: y :: ys

/-- `l.sort(key=k, reverse=True)`: the stable descending sort by key.
Python's sort is stable and `reverse=True` preserves stability; the stable
descending sort by a total preorder is unique, so insertion from the right
computes it. -/
def sortDesc (k : α → List ℚ) (l : List α) : List α := l.foldr (insertDesc k) []

/-- The comparator's ordering operation: sort labels newest-first. -/
def orderDescending (labels : List String) : List String := sortDesc sortKey labels

/-! ## The guarded key computation with Python exception behaviour

For claim C9 we also embed the key computation with `float`'s failure
behaviour visible: `float(n)` raises unless `n` is an unsigned decimal
numeral (the only shapes reachable here; signs/exponents/spaces do not
occur in regex matches). -/

/-- Shape accepted by `float(...)` among the strings reachable in this
program: at least one digit, only digits and dots, at most one dot. -/
def floatShapeOk (s : String) : Bool :=
  s.toList.any Char.isDigit && s.toList.all (fun c => c.isDigit || c = '.')
    && (s.toList.filter (fun c => c = '.')).length ≤ 1

def pyFloatE (s : String) : Except Unit ℚ :=
  if floatShapeOk s then .ok (pyFloatVal s) else .error ()

/-- One key component, with the `float` call's exception made explicit. -/
def keyCompE (n : String) : Except Unit ℚ :=
  if pyIsdigit (pyRemoveDotOnce n) then pyFloatE n else .ok 0

/-- Map a fallible function over a list, left to right, propagating the
first exception (how the sort key function is applied to each element). -/
def exceptMap (f : α → Except Unit β) : List α → Except Unit (List β)
  | [] => .ok []
  | x :: r =>
    match f x with
    | .error e => .error e
    | .ok b =>
      match exceptMap f r with
      | .error e => .error e
      | .ok bs => .ok (b :: bs)

/-- The per-label key with exceptions: the key lambda applied to one label. -/
def keyListE (x : String) : Except Unit (List ℚ) := exceptMap keyCompE (pyFindall x)

/-- Lines 245-252: `try: versions.sort(key=..., reverse=True) except: pass`.
If computing any key raises, the original order is kept. -/
def ncovTrySort (vs : List String) : List String :=
  match exceptMap keyListE vs with
  | .ok _ => sortDesc sortKey vs
  | .error _ => vs

/-- Digit-run invariant carried by the scanner states. -/
def dsOk (ds : List Char) : Prop := ds ≠ [] ∧ ∀ c ∈ ds, c.isDigit = true

/-- Invariant of a scanner state: every accumulated run is a non-empty
digit run. -/
def stateOk : ScanState → Prop
  | .outside => True
  | .intRun ds => dsOk ds
  | .pendingDot ds => dsOk ds
  | .fracRun ds fs => dsOk ds ∧ dsOk fs

/-! ## External collaborators

HTTP transport, HTML parsing and datetime parsing are external
collaborators (spec section 1/6).  A `World` supplies them as oracles, at
exactly the granularity of the queries `version_check.py` performs.
-/

/-- A value stored in a result dict: a string or a list of strings. -/
inductive Val where
  | str (s : String) : Val
  | strList (l : List String) : Val
deriving DecidableEq

/-- A Python dict as returned by the pipeline functions. -/
abbrev PyDict := List (String × Val)

/-- A hyperlink (`<a>` tag): its `href` attribute (`none` when absent) and
its raw text. -/
structure Link where
  href : Option String
  text : String
deriving DecidableEq

/-- A leaf element reached by `select_one`: its raw text and its `datetime`
attribute (`none` models `'datetime' not in attrs`). -/
structure Leaf where
  text : String
  datetime : Option String
deriving DecidableEq

/-- An element `select_one` queries are made on (release header, tag row). -/
structure Elem where
  selectOne : String → Option Leaf

/-- A file-browser row: whether it carries the directory-icon `svg` the
source queries for, and the link found inside it, if any. -/
structure Row where
  hasDirSvg : Bool
  link : Option Link
deriving DecidableEq

/-- The queries the source makes against a parsed page
(`BeautifulSoup(response.text, 'html.parser')`), as oracles:
`select s` is `soup.select(s)`, `findAllA` is `soup.find_all('a')`,
`boxRows` is `find_all('div', class_='Box-row')`, `roleRows` is
`find_all('div', role='row')`, and `classRows` is
`find_all('div', class_=['Box-row', 'js-navigation-item'])`. -/
structure Doc where
  select : String → List Elem
  findAllA : List Link
  boxRows : List Row
  roleRows : List Row
  classRows : List Row

/-- The fields the source reads from the release API JSON object; `none`
models an absent key (subscripting raises `KeyError`). -/
structure ApiJson where
  tag_name : Option String
  published_at : Option String
  html_url : Option String

/-- A `requests` response: whether `raise_for_status()` passes, the message
it raises otherwise, the result of `.json()`, and the parsed document. -/
structure HttpResponse where
  ok : Bool
  statusError : String
  json : Except String ApiJson
  doc : Doc

/-- The external world.  `fetch` models `requests.get` (an `error` is a
raised exception carrying `str(e)`); `parseApiDate` models
`datetime.strptime(s, "%Y-%m-%dT%H:%M:%SZ").strftime("%Y-%m-%d")` and
`parseIsoDate` models
`datetime.fromisoformat(s.replace('Z', '+00:00')).strftime("%Y-%m-%d")`,
each an `error` when parsing raises. -/
structure World where
  fetch : String → Except String HttpResponse
  parseApiDate : String → Except String String
  parseIsoDate : String → Except String String

/-- `response.raise_for_status()`. -/
def raiseForStatus (r : HttpResponse) : Except String Unit :=
  if r.ok then .ok () else .error r.statusError

/-- A single-quote character (for Python `repr`-style messages). -/
def pyQuote : String := String.singleton (Char.ofNat 39)

/-- `str(KeyError(k))` is the quoted key. -/
def keyErrMsg (k : String) : String := pyQuote ++ k ++ pyQuote

/-- `data[k]` on a JSON field: raises `KeyError(k)` when absent. -/
def jget (v : Option String) (k : String) : Except String String :=
  match v with
  | some s => .ok s
  | none => .error (keyErrMsg k)

/-- `sub in s` on strings. -/
def strContains (s sub : String) : Bool :=
  s.toList.tails.any (fun t => sub.toList.isPrefixOf t)

/-- ASCII whitespace, for `str.strip()`. -/
def isPyWs (c : Char) : Bool := c = ' ' || c = '\n' || c = '\t' || c = '\r'

/-- `s.strip()` (ASCII-whitespace model). -/
def pyStrip (s : String) : String :=
  String.mk (((s.toList.dropWhile isPyWs).reverse.dropWhile isPyWs).reverse)

/-- `k in d` for a result dict. -/
def pyHasKey (d : PyDict) (k : String) : Bool := (List.lookup k d).isSome

/-- `d[k]` for a result dict: raises `KeyError(k)` when absent. -/
def pyGet (d : PyDict) (k : String) : Except String Val :=
  match List.lookup k d with
  | some v => .ok v
  | none => .error (keyErrMsg k)

/-- Rendering of a dict value inside an f-string. -/
def Val.toPy : Val → String
  | .str s => s
  | .strList l => "[" ++ String.intercalate ", " (l.map (fun s => pyQuote ++ s ++ pyQuote)) ++ "]"

/-- Truthiness of a dict value. -/
def Val.truthy : Val → Bool
  | .str s => !s.isEmpty
  | .strList l => !l.isEmpty

/-- Iterating a dict value in a `for` loop (a string iterates as its
characters). -/
def Val.iter : Val → List String
  | .str s => s.toList.map (fun c => String.singleton c)
  | .strList l => l

/-- A failure record `{"error": msg}`. -/
def errDict (msg : String) : PyDict := [("error", .str msg)]

/-- A release success record. -/
def relDict (version published url : String) : PyDict :=
  [("version", .str version), ("published_date", .str published), ("url", .str url)]

/-! ## Pipeline 1: `check_pangolin_version` (lines 9-120) -/

def pangolinApiUrl : String := "https://api.github.com/repos/cov-lineages/pangolin/releases/latest"

def pangolinReleasesUrl : String := "https://github.com/cov-lineages/pangolin/releases"

def pangolinTagsUrl : String := "https://github.com/cov-lineages/pangolin/tags"

def pangolinTagBaseUrl : String := "https://github.com/cov-lineages/pangolin/releases/tag/"

/-- Lines 12-26: the GitHub API strategy; any raise inside the outer `try`
body surfaces as an `error`. -/
def pangolinApiAttempt (w : World) : Except String PyDict :=
  match w.fetch pangolinApiUrl with
  | .error e => .error e
  | .ok response =>
    match raiseForStatus response with
    | .error e => .error e
    | .ok _ =>
      match response.json with
      | .error e => .error e
      | .ok data =>
        match jget data.tag_name "tag_name" with
        | .error e => .error e
        | .ok version =>
          match jget data.published_at "published_at" with
          | .error e => .error e
          | .ok pub =>
            match w.parseApiDate pub with
            | .error e => .error e
            | .ok published_date =>
              match jget data.html_url "html_url" with
              | .error e => .error e
              | .ok hurl => .ok (relDict version published_date hurl)

/-- Lines 41-46: candidate release-header selectors, in priority order. -/
def pangolinSelectors : List String :=
  ["div.release-header", "div.release", "div.Box-row", "div[data-hovercard-type=\"release\"]"]

/-- Lines 97: candidate version-tag selectors, in priority order. -/
def versionTagSelectors : List String :=
  ["a.Link--primary", "a[href*=\"/releases/tag/\"]", "a[data-hovercard-type=\"release\"]"]

/-- `for selector in ...: x = f(selector); if x: break` — first hit wins. -/
def firstHit (f : String → Option α) : List String → Option α
  | [] => none
  | s :: rest =>
    match f s with
    | some x => some x
    | none => firstHit f rest

/-- Lines 82-83: scan every link on the tags page for a `/releases/tag/`
target whose raw text contains a `v`. -/
def pangolinLinkScan (doc : Doc) : List Link :=
  doc.findAllA.filter (fun link =>
    strContains (link.href.getD "") "/releases/tag/" && strContains link.text "v")

/-- Lines 82-92: the aggressive link scan; the first hit is reported with an
`Unknown` date, and a miss is the (returned, not raised) no-information
failure record. -/
def pangolinScanResult (soup : Doc) : PyDict :=
  match pangolinLinkScan soup with
  | [] => errDict "Could not find Pangolin version information"
  | link :: _ =>
    let version := pyStrip link.text
    relDict version "Unknown" (pangolinTagBaseUrl ++ version)

/-- Lines 54-92: the tags-page strategy (reached only when no release
header was found), falling through to the link scan. -/
def pangolinTagsAttempt (w : World) : Except String PyDict :=
  match w.fetch pangolinTagsUrl with
  | .error e => .error e
  | .ok response =>
    match raiseForStatus response with
    | .error e => .error e
    | .ok _ =>
      let soup := response.doc
      match (soup.select "div.Box-row").head? with
      | some tagElement =>
        match tagElement.selectOne "a[href*=\"/releases/tag/\"]" with
        | some tagLink =>
          let version := pyStrip tagLink.text
          match (match tagElement.selectOne "relative-time" with
                 | some timeElement =>
                   match timeElement.datetime with
                   | some dt => w.parseIsoDate dt
                   | none => .ok "Unknown"
                 | none => .ok "Unknown") with
          | .error e => .error e
          | .ok published_date =>
            .ok (relDict version published_date (pangolinTagBaseUrl ++ version))
        | none => .ok (pangolinScanResult soup)
      | none => .ok (pangolinScanResult soup)

/-- Lines 29-118: the nested `try` body — the releases-page scrape, going to
the tags-page strategies only when no release header is found; a located
release header with no extractable version tag returns the error record at
line 103. -/
def pangolinHtmlAttempt (w : World) : Except String PyDict :=
  match w.fetch pangolinReleasesUrl with
  | .error e => .error e
  | .ok response =>
    match raiseForStatus response with
    | .error e => .error e
    | .ok _ =>
      let soup := response.doc
      match firstHit (fun s => (soup.select s).head?) pangolinSelectors with
      | none => pangolinTagsAttempt w
      | some releaseElement =>
        match firstHit releaseElement.selectOne versionTagSelectors with
        | none => .ok (errDict "Could not find version tag")
        | some versionTag =>
          let version := pyStrip versionTag.text
          match (match releaseElement.selectOne "relative-time" with
                 | some timeTag =>
                   match timeTag.datetime with
                   | some dt => w.parseIsoDate dt
                   | none => .ok "Unknown"
                 | none => .ok "Unknown") with
          | .error e => .error e
          | .ok published_date =>
            .ok (relDict version published_date (pangolinTagBaseUrl ++ version))

/-- Lines 9-120: API strategy, then HTML strategies, then the concatenated
failure message of line 120. -/
def check_pangolin_version (w : World) : PyDict :=
  match pangolinApiAttempt w with
  | .ok d => d
  | .error e =>
    match pangolinHtmlAttempt w with
    | .ok d => d
    | .error nested =>
      errDict ("Failed to retrieve Pangolin version: " ++ e ++ ", then " ++ nested)

/-! ## Pipeline 2: `check_artic_version` (lines 122-137) -/

def articApiUrl : String := "https://api.github.com/repos/artic-network/fieldbioinformatics/releases/latest"

/-- Lines 124-135: the single API strategy for the ARTIC tool. -/
def articApiAttempt (w : World) : Except String PyDict :=
  match w.fetch articApiUrl with
  | .error e => .error e
  | .ok response =>
    match raiseForStatus response with
    | .error e => .error e
    | .ok _ =>
      match response.json with
      | .error e => .error e
      | .ok data =>
        match jget data.tag_name "tag_name" with
        | .error e => .error e
        | .ok version =>
          match jget data.published_at "published_at" with
          | .error e => .error e
          | .ok pub =>
            match w.parseApiDate pub with
            | .error e => .error e
            | .ok published_date =>
              match jget data.html_url "html_url" with
              | .error e => .error e
              | .ok hurl => .ok (relDict version published_date hurl)

def check_artic_version (w : World) : PyDict :=
  match articApiAttempt w with
  | .ok d => d
  | .error e => errDict ("Failed to retrieve ARTIC version: " ++ e)

/-! ## Pipeline 3: `check_artic_sarscov2_primers` (lines 139-188) -/

def sarsUrl : String := "https://github.com/artic-network/primer-schemes/tree/master/sars-cov-2"

/-- Line 162: `re.match(r'V?\d+(\.\d+)*', name, re.IGNORECASE)` succeeds iff
an optional `V`/`v` prefix is followed by a digit (`re.match` anchors only
at the start, and the dotted groups are optional). -/
def versionNameMatch (name : String) : Bool :=
  match name.toList with
  | [] => false
  | c :: rest =>
    if c == 'V' || c == 'v' then
      match rest with
      | [] => false
      | d :: _ => d.isDigit
    else c.isDigit

/-- Lines 154-163: names of directory rows matching the version pattern. -/
def sarsFiltered (rows : List Row) : List String :=
  rows.filterMap (fun row =>
    if row.hasDirSvg then
      match row.link with
      | some nameElement =>
        let name := pyStrip nameElement.text
        if versionNameMatch name then some name else none
      | none => none
    else none)

/-- Lines 166-170: the unfiltered fallback — every directory name. -/
def sarsAllDirs (rows : List Row) : List String :=
  rows.filterMap (fun row =>
    if row.hasDirSvg then
      match row.link with
      | some nameElement => some (pyStrip nameElement.text)
      | none => none
    else none)

/-- Lines 177-186: report the sorted list, or the failure record when it is
empty. -/
def sarsReport (versions : List String) : PyDict :=
  match versions with
  | [] => errDict "No primer versions found"
  | latest :: rest =>
    [("latest_version", .str latest), ("all_versions", .strList (latest :: rest)),
     ("url", .str (sarsUrl ++ "/" ++ latest))]

/-- Lines 141-186: the single HTML strategy with its unfiltered fallback.
The sort at lines 172-175 has no exception guard here; by
`ncovTrySort_eq`-style reasoning the key function never raises, so the
total `sortDesc` is its exact behaviour. -/
def sarsAttempt (w : World) : Except String PyDict :=
  match w.fetch sarsUrl with
  | .error e => .error e
  | .ok response =>
    match raiseForStatus response with
    | .error e => .error e
    | .ok _ =>
      let rows := response.doc.boxRows
      let filtered := sarsFiltered rows
      let versions := if filtered.isEmpty then sarsAllDirs rows else filtered
      .ok (sarsReport (sortDesc sortKey versions))

def check_artic_sarscov2_primers (w : World) : PyDict :=
  match sarsAttempt w with
  | .ok d => d
  | .error e => errDict ("Failed to retrieve ARTIC SARS-CoV-2 primers: " ++ e)

/-! ## Pipeline 4: `check_artic_ncov2019_primers` (lines 190-259) -/

def ncovUrl : String := "https://github.com/artic-network/primer-schemes/tree/master/nCoV-2019"

/-- Lines 208-214: strategy 1 — scan all hyperlinks whose target contains
the directory path, excluding self-referential names. -/
def ncovLinkNames (doc : Doc) : List String :=
  doc.findAllA.filterMap (fun a_tag =>
    match a_tag.href with
    | some href =>
      if strContains href "/tree/master/nCoV-2019/" && !(pyStrip a_tag.text).isEmpty then
        let dir_name := pyStrip a_tag.text
        if dir_name != ".." && dir_name != "." && dir_name != "nCoV-2019" then some dir_name
        else none
      else none
    | none => none)

/-- Lines 216-218: `[x for x in versions if not (x in seen or seen.add(x))]`. -/
def dedupSeen (seen : List String) : List String → List String
  | [] => []
  | x :: r => if seen.contains x then dedupSeen seen r else x :: dedupSeen (x :: seen) r

def dedupPreserve (l : List String) : List String := dedupSeen [] l

/-- Lines 221-230: strategy 2 — `role='row'` rows with a directory icon and
a non-empty link text. -/
def ncovRoleNames (doc : Doc) : List String :=
  doc.roleRows.filterMap (fun row =>
    if row.hasDirSvg then
      match row.link with
      | some name_link =>
        if !(pyStrip name_link.text).isEmpty then some (pyStrip name_link.text) else none
      | none => none
    else none)

/-- Lines 232-239: strategy 3 — rows by class with a directory icon; note
the absence of a non-emptiness check on the name here. -/
def ncovClassNames (doc : Doc) : List String :=
  doc.classRows.filterMap (fun row =>
    if row.hasDirSvg then
      match row.link with
      | some name_link => some (pyStrip name_link.text)
      | none => none
    else none)

/-- Lines 192-257: the three cascading strategies, the guarded sort, and
the reports. -/
def ncovAttempt (w : World) : Except String PyDict :=
  match w.fetch ncovUrl with
  | .error e => .error e
  | .ok response =>
    match raiseForStatus response with
    | .error e => .error e
    | .ok _ =>
      let soup := response.doc
      let fromLinks := dedupPreserve (ncovLinkNames soup)
      let afterRole := if fromLinks.isEmpty then ncovRoleNames soup else fromLinks
      let versions := if afterRole.isEmpty then ncovClassNames soup else afterRole
      if versions.isEmpty then
        .ok (errDict "Could not detect ARTIC primer versions from the GitHub page")
      else
        .ok [("all_versions", .strList (ncovTrySort versions)), ("url", .str ncovUrl)]

def check_artic_ncov2019_primers (w : World) : PyDict :=
  match ncovAttempt w with
  | .ok d => d
  | .error e => errDict ("Failed to retrieve ARTIC nCoV-2019 primers: " ++ e)

/-! ## `main` (lines 261-305) -/

def eq60 : String := String.mk (List.replicate 60 '=')

def dash60 : String := String.mk (List.replicate 60 '-')

/-- Lines 271-276 and 282-287: report one release-pipeline result (the two
sections of `main` are the same code; subscripting can raise `KeyError`,
which the `Except` captures). -/
def releaseReport (info : PyDict) : Except String (List String) :=
  if pyHasKey info "error" then
    match pyGet info "error" with
    | .error e => .error e
    | .ok e => .ok ["  " ++ e.toPy]
  else
    match pyGet info "version" with
    | .error e => .error e
    | .ok v =>
      match pyGet info "published_date" with
      | .error e => .error e
      | .ok p =>
        match pyGet info "url" with
        | .error e => .error e
        | .ok u =>
          .ok ["  Latest version: " ++ v.toPy, "  Published date: " ++ p.toPy,
               "  URL: " ++ u.toPy]

/-- Lines 293-300: report the primer-scheme pipeline result. -/
def schemesReport (info : PyDict) : Except String (List String) :=
  if pyHasKey info "error" then
    match pyGet info "error" with
    | .error e => .error e
    | .ok e => .ok ["  " ++ e.toPy]
  else
    let versionLines : Except String (List String) :=
      if pyHasKey info "all_versions" then
        match pyGet info "all_versions" with
        | .error e => .error e
        | .ok av =>
          if av.truthy then .ok (av.iter.map (fun version => "    - " ++ version))
          else .ok []
      else .ok []
    match versionLines with
    | .error e => .error e
    | .ok versionLines =>
      match pyGet info "url" with
      | .error e => .error e
      | .ok u =>
        .ok (["  Available primer versions:"] ++ versionLines ++ ["  URL: " ++ u.toPy])

/-- Lines 261-302: the sequence of `print` arguments `main` produces.  Note
`main` calls `check_pangolin_version`, `check_artic_version` and
`check_artic_ncov2019_primers`; no other pipeline is invoked. -/
def mainRun (w : World) : Except String (List String) :=
  let pangolin_info := check_pangolin_version w
  match releaseReport pangolin_info with
  | .error e => .error e
  | .ok l1 =>
    let artic_info := check_artic_version w
    match releaseReport artic_info with
    | .error e => .error e
    | .ok l2 =>
      let schemes_info := check_artic_ncov2019_primers w
      match schemesReport schemes_info with
      | .error e => .error e
      | .ok l3 =>
        .ok ([eq60, "CHECKING LATEST VERSIONS OF SARS-CoV-2 TOOLS", eq60,
              "\n1. Pangolin Repository", dash60] ++ l1 ++
             ["\n2. ARTIC Field Bioinformatics", dash60] ++ l2 ++
             ["\n3. ARTIC nCoV-2019 Primer Schemes", dash60] ++ l3 ++
             ["\n" ++ eq60])

/-- Decidable equality of `Except` results (for evaluating the embedding on
concrete inputs). -/
instance {e a : Type} [DecidableEq e] [DecidableEq a] : DecidableEq (Except e a) := fun x y =>
  match x, y with
  | .error u, .error v =>
    if h : u = v then isTrue (by rw [h]) else isFalse (fun hc => h (by cases hc; rfl))
  | .error _, .ok _ => isFalse (fun hc => Except.noConfusion hc)
  | .ok _, .error _ => isFalse (fun hc => Except.noConfusion hc)
  | .ok u, .ok v =>
    if h : u = v then isTrue (by rw [h]) else isFalse (fun hc => h (by cases hc; rfl))

/-! ## Concrete worlds used as test inputs

These are inputs for the theorems below, not part of the embedding: each
describes one concrete behaviour of the external collaborators.
-/

/-- A page with no queryable content. -/
def emptyDoc : Doc :=
  { select := fun _ => [], findAllA := [], boxRows := [], roleRows := [], classRows := [] }

/-- A successful HTML response (`.json()` on it would raise). -/
def htmlResp (d : Doc) : HttpResponse :=
  { ok := true, statusError := "", json := .error "Expecting value: line 1 column 1 (char 0)",
    doc := d }

/-- A world where every network fetch raises and no date parses. -/
def failWorld : World :=
  { fetch := fun _ => .error "down", parseApiDate := fun _ => .error "bad date",
    parseIsoDate := fun _ => .error "bad date" }

/-- The sars-cov-2 directory listing with `V1` and `V2` sub-directories. -/
def sarsDocV12 : Doc :=
  { emptyDoc with boxRows :=
      [{ hasDirSvg := true, link := some { href := some "x", text := "V1" } },
       { hasDirSvg := true, link := some { href := some "x", text := "V2" } }] }

/-- The sars-cov-2 directory listing with two non-version sub-directories. -/
def sarsDocPlain : Doc :=
  { emptyDoc with boxRows :=
      [{ hasDirSvg := true, link := some { href := some "x", text := "foo" } },
       { hasDirSvg := true, link := some { href := some "x", text := "bar" } }] }

/-- A world where only the sars-cov-2 listing is reachable. -/
def sarsWorld (d : Doc) : World :=
  { failWorld with fetch := fun u => if u = sarsUrl then .ok (htmlResp d) else .error "down" }

/-- A release header on which no `select_one` query matches. -/
def bareElem : Elem := { selectOne := fun _ => none }

/-- A releases page whose first selector yields a release header. -/
def relDocWithHeader : Doc :=
  { emptyDoc with select := fun s => if s = "div.release-header" then [bareElem] else [] }

/-- A tag row with a `/releases/tag/` link of text `v9.9` and no date. -/
def tagElemGood : Elem :=
  { selectOne := fun s =>
      if s = "a[href*=\"/releases/tag/\"]" then some { text := "v9.9", datetime := none }
      else none }

/-- A tags page whose first `Box-row` is `tagElemGood`. -/
def tagsDocGood : Doc :=
  { emptyDoc with select := fun s => if s = "div.Box-row" then [tagElemGood] else [] }

/-- Pangolin API down; releases page has a header with no version tag; tags
page has a perfectly scrapable tag. -/
def pangolinHeaderNoTagWorld : World :=
  { failWorld with fetch := fun u =>
      if u = pangolinReleasesUrl then Except.ok (htmlResp relDocWithHeader)
      else if u = pangolinTagsUrl then Except.ok (htmlResp tagsDocGood)
      else Except.error "API down" }

/-- Same world except the releases page has no release header at all. -/
def pangolinNoHeaderWorld : World :=
  { failWorld with fetch := fun u =>
      if u = pangolinReleasesUrl then Except.ok (htmlResp emptyDoc)
      else if u = pangolinTagsUrl then Except.ok (htmlResp tagsDocGood)
      else Except.error "API down" }

/-- API raises the given message; every HTML page is reachable but empty. -/
def pangolinEmptyPagesWorld (apiErr : String) : World :=
  { failWorld with fetch := fun u =>
      if u = pangolinApiUrl then .error apiErr else .ok (htmlResp emptyDoc) }

/-- One hyperlink into the nCoV-2019 tree with the given text. -/
def ncovLink (t : String) : Link := { href := some "/tree/master/nCoV-2019/x", text := t }

/-- A directory row (for strategies 2 and 3) with the given name. -/
def dirRow (t : String) : Row := { hasDirSvg := true, link := some { href := none, text := t } }

/-- nCoV-2019 page for strategy 1: duplicated and self-referential links. -/
def ncovDocLinks : Doc :=
  { emptyDoc with findAllA :=
      [ncovLink ".", ncovLink "nCoV-2019", ncovLink "V1", ncovLink "V1", ncovLink "V3",
       ncovLink "..", { href := some "other", text := "V9" }, { href := none, text := "V8" }] }

/-- nCoV-2019 page where only strategy 2 finds rows, with duplicates and a
self-referential name. -/
def ncovDocRole : Doc :=
  { emptyDoc with roleRows :=
      [dirRow "..", dirRow "V1", dirRow "V1", { hasDirSvg := false, link := some { href := none, text := "V7" } }] }

/-- nCoV-2019 page where only strategy 3 finds rows. -/
def ncovDocClass : Doc := { emptyDoc with classRows := [dirRow "..", dirRow ""] }

/-- A world where only the nCoV-2019 listing is reachable. -/
def ncovWorld (d : Doc) : World :=
  { failWorld with fetch := fun u => if u = ncovUrl then .ok (htmlResp d) else .error "down" }

/-! ## Lemmas about the comparator -/

theorem keyLt_irrefl (a : List ℚ) : keyLt a a = false := by
  induction a with
  | nil => rfl
  | cons x xs ih => simp [keyLt, ih]

theorem keyLt_nil_right (a : List ℚ) : keyLt a [] = false := by
  cases a <;> rfl

theorem keyLt_nil_left {b : List ℚ} (h : b ≠ []) : keyLt [] b = true := by
  cases b with
  | nil => exact absurd rfl h
  | cons y ys => rfl

theorem keyLt_asymm {a b : List ℚ} (h : keyLt a b = true) : keyLt b a = false := by
  induction a generalizing b with
  | nil =>
    cases b with
    | nil => simp [keyLt] at h
    | cons y ys => rfl
  | cons x xs ih =>
    cases b with
    | nil => simp [keyLt] at h
    | cons y ys =>
      simp only [keyLt] at h ⊢
      rcases lt_trichotomy x y with hxy | hxy | hxy
      · simp [hxy, not_lt.mpr hxy.le, lt_asymm hxy]
      · subst hxy
        simp only [lt_irrefl, if_false] at h ⊢
        exact ih h
      · simp [hxy, not_lt.mpr hxy.le, lt_asymm hxy] at h

theorem keyLt_false_trans {a b c : List ℚ} (hab : keyLt a b = false)
    (hbc : keyLt b c = false) : keyLt a c = false := by
  induction a generalizing b c with
  | nil =>
    cases b with
    | nil => exact hbc
    | cons y ys => simp [keyLt] at hab
  | cons x xs ih =>
    cases c with
    | nil => exact keyLt_nil_right _
    | cons z zs =>
      cases b with
      | nil => simp [keyLt] at hbc
      | cons y ys =>
        simp only [keyLt] at hab hbc ⊢
        by_cases hxy : x < y
        · simp [hxy] at hab
        · by_cases hyz : y < z
          · simp [hyz] at hbc
          · have hzx : z ≤ x := le_trans (not_lt.mp hyz) (not_lt.mp hxy)
            have hxz : ¬ x < z := not_lt.mpr hzx
            simp only [hxz, if_false]
            by_cases hzltx : z < x
            · simp [hzltx]
            · have hxez : x = z := le_antisymm (not_lt.mp hzltx) hzx
              have hxey : x = y := le_antisymm (hxez ▸ not_lt.mp hyz) (not_lt.mp hxy)
              simp only [hzltx, if_false]
              have hyx : ¬ y < x := by rw [← hxey]; exact lt_irrefl x
              have hzy : ¬ z < y := by rw [← hxey, ← hxez]; exact lt_irrefl x
              simp only [hxy, hyz, hyx, hzy, if_false] at hab hbc
              exact ih hab hbc

theorem insertDesc_perm (k : α → List ℚ) (x : α) (l : List α) :
    List.Perm (insertDesc k x l) (x :: l) := by
  induction l with
  | nil => exact List.Perm.refl _
  | cons y ys ih =>
    simp only [insertDesc]
    split
    · exact (ih.cons y).trans (List.Perm.swap x y ys)
    · exact List.Perm.refl _

theorem sortDesc_perm (k : α → List ℚ) (l : List α) : List.Perm (sortDesc k l) l := by
  induction l with
  | nil => exact List.Perm.refl _
  | cons x t ih =>
    simp only [sortDesc, List.foldr_cons]
    exact (insertDesc_perm k x _).trans (ih.cons x)

theorem sortDesc_cons (k : α → List ℚ) (x : α) (t : List α) :
    sortDesc k (x :: t) = insertDesc k x (sortDesc k t) := rfl

theorem insertDesc_head {k : α → List ℚ} {x : α} {B : List α}
    (hB : ∀ b ∈ B, keyLt (k x) (k b) = false) : insertDesc k x B = x :: B := by
  cases B with
  | nil => rfl
  | cons b bs => simp [insertDesc, hB b (List.mem_cons_self b bs)]

theorem insertDesc_pairwise {k : α → List ℚ} {x : α} {l : List α}
    (h : l.Pairwise (fun a b => keyLt (k a) (k b) = false)) :
    (insertDesc k x l).Pairwise (fun a b => keyLt (k a) (k b) = false) := by
  induction l with
  | nil => simp [insertDesc]
  | cons y ys ih =>
    rcases List.pairwise_cons.mp h with ⟨hy, hys⟩
    simp only [insertDesc]
    split
    · next hlt =>
      refine List.pairwise_cons.mpr ⟨?_, ih hys⟩
      intro b hb
      rcases List.mem_cons.mp (((insertDesc_perm k x ys).mem_iff).mp hb) with hbx | hbys
      · rw [hbx]
        exact keyLt_asymm hlt
      · exact hy b hbys
    · next hnlt =>
      have hxy : keyLt (k x) (k y) = false := by
        cases hxy : keyLt (k x) (k y)
        · rfl
        · exact absurd hxy hnlt
      refine List.pairwise_cons.mpr ⟨?_, h⟩
      intro b hb
      rcases List.mem_cons.mp hb with hby | hbys
      · rw [hby]
        exact hxy
      · exact keyLt_false_trans hxy (hy b hbys)

theorem sortDesc_pairwise (k : α → List ℚ) (l : List α) :
    (sortDesc k l).Pairwise (fun a b => keyLt (k a) (k b) = false) := by
  induction l with
  | nil => simp [sortDesc]
  | cons x t ih =>
    rw [sortDesc_cons]
    exact insertDesc_pairwise ih

theorem filter_insertDesc_of_key_eq {k : α → List ℚ} {q : List ℚ} {x : α} (hx : k x = q)
    (l : List α) :
    (insertDesc k x l).filter (fun z => decide (k z = q)) =
      x :: l.filter (fun z => decide (k z = q)) := by
  induction l with
  | nil => simp [insertDesc, hx]
  | cons y ys ih =>
    simp only [insertDesc]
    split
    · next hlt =>
      have hyq : ¬ (k y = q) := by
        intro he
        rw [hx, he] at hlt
        rw [keyLt_irrefl] at hlt
        exact Bool.false_ne_true hlt
      simp only [List.filter_cons, decide_eq_true_eq, hyq, if_false, ih]
    · simp [List.filter_cons, hx]

theorem filter_insertDesc_of_key_ne {k : α → List ℚ} {q : List ℚ} {x : α} (hx : ¬ (k x = q))
    (l : List α) :
    (insertDesc k x l).filter (fun z => decide (k z = q)) =
      l.filter (fun z => decide (k z = q)) := by
  induction l with
  | nil => simp [insertDesc, hx]
  | cons y ys ih =>
    simp only [insertDesc]
    split
    · simp only [List.filter_cons, ih]
    · simp [List.filter_cons, hx]

theorem sortDesc_stable (k : α → List ℚ) (l : List α) (q : List ℚ) :
    (sortDesc k l).filter (fun z => decide (k z = q)) =
      l.filter (fun z => decide (k z = q)) := by
  induction l with
  | nil => rfl
  | cons x t ih =>
    rw [sortDesc_cons]
    by_cases hx : k x = q
    · rw [filter_insertDesc_of_key_eq hx, ih]
      simp [List.filter_cons, hx]
    · rw [filter_insertDesc_of_key_ne hx, ih]
      simp [List.filter_cons, hx]

theorem insertDesc_append_right {k : α → List ℚ} {x : α} {B : List α}
    (hB : ∀ b ∈ B, keyLt (k x) (k b) = false) (A : List α) :
    insertDesc k x (A ++ B) = insertDesc k x A ++ B := by
  induction A with
  | nil =>
    rw [List.nil_append, insertDesc_head hB]
    rfl
  | cons a A' ih =>
    simp only [List.cons_append, insertDesc, List.append_eq]
    split
    · rw [ih]
      rfl
    · rfl

theorem insertDesc_append_left {k : α → List ℚ} {x : α} {A : List α}
    (hA : ∀ a ∈ A, keyLt (k x) (k a) = true) (B : List α) :
    insertDesc k x (A ++ B) = A ++ insertDesc k x B := by
  induction A with
  | nil => rfl
  | cons a A' ih =>
    simp only [List.cons_append, insertDesc, List.append_eq]
    split
    · rw [ih (fun a' ha' => hA a' (List.mem_cons_of_mem a ha'))]
    · next hn => exact absurd (hA a (List.mem_cons_self a A')) hn

theorem sortDesc_empty_keys_last (k : α → List ℚ) (l : List α) :
    sortDesc k l = sortDesc k (l.filter (fun z => !(k z).isEmpty)) ++
      l.filter (fun z => (k z).isEmpty) := by
  induction l with
  | nil => rfl
  | cons x t ih =>
    rw [sortDesc_cons, ih]
    by_cases hx : (k x).isEmpty
    · have hxnil : k x = [] := List.isEmpty_iff.mp hx
      have hne : ∀ a ∈ sortDesc k (t.filter (fun z => !(k z).isEmpty)), keyLt (k x) (k a) = true := by
        intro a ha
        have ha' := (sortDesc_perm k _).mem_iff.mp ha
        have hmem := List.of_mem_filter ha'
        rw [hxnil]
        exact keyLt_nil_left (fun hnil => by simp [hnil] at hmem)
      have hemp : ∀ b ∈ t.filter (fun z => (k z).isEmpty), keyLt (k x) (k b) = false := by
        intro b hb
        have hmem := List.of_mem_filter hb
        rw [hxnil, List.isEmpty_iff.mp hmem]
        rfl
      rw [insertDesc_append_left hne, insertDesc_head hemp]
      simp [List.filter_cons, hx]
    · have hemp : ∀ b ∈ t.filter (fun z => (k z).isEmpty), keyLt (k x) (k b) = false := by
        intro b hb
        have hmem := List.of_mem_filter hb
        rw [List.isEmpty_iff.mp hmem]
        exact keyLt_nil_right _
      rw [insertDesc_append_right hemp]
      simp [List.filter_cons, hx, sortDesc_cons]

/-! ## Shape of the regex matches -/

theorem digit_ne_dot {c : Char} (h : c.isDigit = true) : c ≠ '.' := by
  intro he
  subst he
  exact absurd h (by decide)

theorem removeDotOnce_of_no_dot {l : List Char} (h : ∀ c ∈ l, c ≠ '.') :
    removeDotOnce l = l := by
  induction l with
  | nil => rfl
  | cons c r ih =>
    simp only [removeDotOnce, h c (List.mem_cons_self c r), if_false]
    rw [ih (fun c' hc' => h c' (List.mem_cons_of_mem c hc'))]

theorem removeDotOnce_digits_append {A B : List Char} (hA : ∀ c ∈ A, c ≠ '.') :
    removeDotOnce (A ++ '.' :: B) = A ++ B := by
  induction A with
  | nil => simp [removeDotOnce]
  | cons a A' ih =>
    simp only [List.cons_append, removeDotOnce, hA a (List.mem_cons_self a A'), if_false,
      List.append_eq]
    rw [ih (fun c hc => hA c (List.mem_cons_of_mem a hc))]

theorem pyIsdigit_mk {l : List Char} (hne : l ≠ []) (h : ∀ c ∈ l, c.isDigit = true) :
    pyIsdigit (String.mk l) = true := by
  simp only [pyIsdigit, String.toList]
  simp only [List.isEmpty_iff, List.all_eq_true, Bool.and_eq_true, Bool.not_eq_true']
  exact ⟨by simpa [List.isEmpty_iff] using hne, h⟩

theorem tokOk_emitInt {ds : List Char} (h : dsOk ds) :
    pyIsdigit (pyRemoveDotOnce (String.mk (emitInt ds))) = true := by
  rcases h with ⟨hne, hdig⟩
  have hdig' : ∀ c ∈ ds.reverse, c.isDigit = true := fun c hc => hdig c (List.mem_reverse.mp hc)
  have : removeDotOnce ds.reverse = ds.reverse :=
    removeDotOnce_of_no_dot (fun c hc => digit_ne_dot (hdig' c hc))
  show pyIsdigit (String.mk (removeDotOnce (String.mk (emitInt ds)).toList)) = true
  simp only [String.toList, emitInt, this]
  exact pyIsdigit_mk (by simpa using hne) hdig'

theorem tokOk_emitFrac {ds fs : List Char} (hd : dsOk ds) (hf : dsOk fs) :
    pyIsdigit (pyRemoveDotOnce (String.mk (emitFrac ds fs))) = true := by
  rcases hd with ⟨hdne, hddig⟩
  rcases hf with ⟨hfne, hfdig⟩
  have hddig' : ∀ c ∈ ds.reverse, c.isDigit = true := fun c hc => hddig c (List.mem_reverse.mp hc)
  have hfdig' : ∀ c ∈ fs.reverse, c.isDigit = true := fun c hc => hfdig c (List.mem_reverse.mp hc)
  have hrm : removeDotOnce (ds.reverse ++ '.' :: fs.reverse) = ds.reverse ++ fs.reverse :=
    removeDotOnce_digits_append (fun c hc => digit_ne_dot (hddig' c hc))
  show pyIsdigit (String.mk (removeDotOnce (String.mk (emitFrac ds fs)).toList)) = true
  simp only [String.toList, emitFrac, hrm]
  refine pyIsdigit_mk ?_ ?_
  · simp [hdne]
  · intro c hc
    rcases List.mem_append.mp hc with h1 | h2
    · exact hddig' c h1
    · exact hfdig' c h2

theorem scanNums_tokens (cs : List Char) : ∀ (st : ScanState), stateOk st →
    ∀ t ∈ scanNums st cs, pyIsdigit (pyRemoveDotOnce (String.mk t)) = true := by
  induction cs with
  | nil =>
    intro st hst t ht
    cases st with
    | outside => simp [scanNums] at ht
    | intRun ds =>
      simp only [scanNums, List.mem_singleton] at ht
      exact ht ▸ tokOk_emitInt hst
    | pendingDot ds =>
      simp only [scanNums, List.mem_singleton] at ht
      exact ht ▸ tokOk_emitInt hst
    | fracRun ds fs =>
      simp only [scanNums, List.mem_singleton] at ht
      exact ht ▸ tokOk_emitFrac hst.1 hst.2
  | cons c r ih =>
    intro st hst t ht
    cases st with
    | outside =>
      simp only [scanNums] at ht
      split at ht
      · next hc => exact ih (.intRun [c]) ⟨by simp, by simp [hc]⟩ t ht
      · exact ih .outside trivial t ht
    | intRun ds =>
      simp only [scanNums] at ht
      split at ht
      · next hc =>
        refine ih (.intRun (c :: ds)) ⟨by simp, ?_⟩ t ht
        intro d hd
        rcases List.mem_cons.mp hd with h1 | h2
        · exact h1 ▸ hc
        · exact hst.2 d h2
      · split at ht
        · exact ih (.pendingDot ds) hst t ht
        · rcases List.mem_cons.mp ht with h1 | h2
          · exact h1 ▸ tokOk_emitInt hst
          · exact ih .outside trivial t h2
    | pendingDot ds =>
      simp only [scanNums] at ht
      split at ht
      · next hc => exact ih (.fracRun ds [c]) ⟨hst, by simp, by simp [hc]⟩ t ht
      · rcases List.mem_cons.mp ht with h1 | h2
        · exact h1 ▸ tokOk_emitInt hst
        · exact ih .outside trivial t h2
    | fracRun ds fs =>
      simp only [scanNums] at ht
      split at ht
      · next hc =>
        refine ih (.fracRun ds (c :: fs)) ⟨hst.1, by simp, ?_⟩ t ht
        intro d hd
        rcases List.mem_cons.mp hd with h1 | h2
        · exact h1 ▸ hc
        · exact hst.2.2 d h2
      · rcases List.mem_cons.mp ht with h1 | h2
        · exact h1 ▸ tokOk_emitFrac hst.1 hst.2
        · exact ih .outside trivial t h2

theorem pyFindall_guard (x : String) : ∀ n ∈ pyFindall x, pyIsdigit (pyRemoveDotOnce n) = true := by
  intro n hn
  rcases List.mem_map.mp hn with ⟨t, ht, rfl⟩
  exact scanNums_tokens x.toList .outside trivial t ht

theorem all_digit_filter_dot {l : List Char} (h : ∀ c ∈ l, c.isDigit = true) :
    l.filter (fun c => c = '.') = [] := by
  rw [List.filter_eq_nil_iff]
  intro c hc
  simpa using digit_ne_dot (h c hc)

theorem rmdot_all_digit_shape {l : List Char}
    (h : ∀ c ∈ removeDotOnce l, c.isDigit = true) :
    (∀ c ∈ l, c.isDigit = true ∨ c = '.') ∧ (l.filter (fun c => c = '.')).length ≤ 1 := by
  induction l with
  | nil => simp
  | cons c r ih =>
    by_cases hc : c = '.'
    · subst hc
      simp only [removeDotOnce, if_pos rfl] at h
      simp only [if_true] at h
      constructor
      · intro d hd
        rcases List.mem_cons.mp hd with h1 | h2
        · exact Or.inr h1
        · exact Or.inl (h d h2)
      · simp only [List.filter_cons, decide_eq_true_eq, if_pos rfl, List.length_cons]
        simp only [if_true]
        rw [all_digit_filter_dot h]
        simp
    · simp only [removeDotOnce, if_neg hc] at h
      have hcd := h c (List.mem_cons_self c _)
      have ihr := ih (fun d hd => h d (List.mem_cons_of_mem c hd))
      constructor
      · intro d hd
        rcases List.mem_cons.mp hd with h1 | h2
        · exact Or.inl (h1 ▸ hcd)
        · exact ihr.1 d h2
      · simp only [List.filter_cons, decide_eq_true_eq, if_neg hc]
        exact ihr.2

theorem removeDotOnce_sublist (l : List Char) : List.Sublist (removeDotOnce l) l := by
  induction l with
  | nil => exact List.Sublist.refl _
  | cons c r ih =>
    simp only [removeDotOnce]
    split
    · exact List.sublist_cons_self c r
    · exact ih.cons₂ c

theorem rmdot_nonempty_any {l : List Char} (hne : removeDotOnce l ≠ [])
    (h : ∀ c ∈ removeDotOnce l, c.isDigit = true) : l.any Char.isDigit = true := by
  cases hrm : removeDotOnce l with
  | nil => exact absurd hrm hne
  | cons d ds =>
    have hd : d ∈ removeDotOnce l := by rw [hrm]; exact List.mem_cons_self d ds
    have hdig : d.isDigit = true := h d hd
    exact List.any_eq_true.mpr ⟨d, (removeDotOnce_sublist l).subset hd, hdig⟩

theorem guard_floatShape {n : String} (h : pyIsdigit (pyRemoveDotOnce n) = true) :
    floatShapeOk n = true := by
  have hl : (!(removeDotOnce n.toList).isEmpty) = true ∧
      ∀ c ∈ removeDotOnce n.toList, c.isDigit = true := by
    have := h
    simp only [pyIsdigit, pyRemoveDotOnce, String.toList, Bool.and_eq_true,
      List.all_eq_true] at this
    exact this
  have hne : removeDotOnce n.toList ≠ [] := by
    intro hnil
    rw [hnil] at hl
    simp at hl
  have hshape := rmdot_all_digit_shape hl.2
  simp only [floatShapeOk, Bool.and_eq_true, List.all_eq_true, List.any_eq_true]
  refine ⟨⟨?_, ?_⟩, ?_⟩
  · have := rmdot_nonempty_any hne hl.2
    rcases List.any_eq_true.mp this with ⟨c, hc, hcd⟩
    exact ⟨c, hc, hcd⟩
  · intro c hc
    rcases hshape.1 c hc with h1 | h1
    · simp [h1]
    · simp [h1]
  · simpa using hshape.2

theorem keyCompE_eq (n : String) : keyCompE n = Except.ok (keyComp n) := by
  by_cases h : pyIsdigit (pyRemoveDotOnce n) = true
  · simp [keyCompE, keyComp, pyFloatE, h, guard_floatShape h]
  · simp [keyCompE, keyComp, h]

theorem exceptMap_ok {f : α → Except Unit β} {g : α → β} {l : List α}
    (h : ∀ a ∈ l, f a = .ok (g a)) : exceptMap f l = .ok (l.map g) := by
  induction l with
  | nil => rfl
  | cons x r ih =>
    simp only [exceptMap, h x (List.mem_cons_self x r)]
    rw [ih (fun a ha => h a (List.mem_cons_of_mem x ha))]
    rfl

theorem keyListE_eq (x : String) : keyListE x = .ok (sortKey x) :=
  exceptMap_ok (fun n _ => keyCompE_eq n)

theorem ncovTrySort_eq (vs : List String) : ncovTrySort vs = sortDesc sortKey vs := by
  simp only [ncovTrySort, exceptMap_ok (fun v (_ : v ∈ vs) => keyListE_eq v)]

theorem sortKey_eq_floatVals (x : String) : sortKey x = (pyFindall x).map pyFloatVal := by
  unfold sortKey
  apply List.map_congr_left
  intro n hn
  simp only [keyComp, pyFindall_guard x n hn, if_true]

theorem scanNums_outside_no_digit {cs : List Char}
    (h : ∀ c ∈ cs, c.isDigit = false) : scanNums .outside cs = [] := by
  induction cs with
  | nil => rfl
  | cons c r ih =>
    simp only [scanNums, h c (List.mem_cons_self c r)]
    simp only [Bool.false_eq_true, if_false]
    exact ih (fun c' hc' => h c' (List.mem_cons_of_mem c hc'))

theorem sortKey_of_no_digit {s : String} (h : s.toList.all (fun c => !c.isDigit) = true) :
    sortKey s = [] := by
  have h' : ∀ c ∈ s.toList, c.isDigit = false := by
    intro c hc
    have := List.all_eq_true.mp h c hc
    simpa using this
  have h2 : ∀ c ∈ s.data, c.isDigit = false := h'
  simp [sortKey, pyFindall, findNums, String.toList, scanNums_outside_no_digit h2]

/-! ## Shapes of the pipeline results -/

theorem pangolinApiAttempt_shape (w : World) :
    (∃ e, pangolinApiAttempt w = .error e) ∨
      ∃ v p u, pangolinApiAttempt w = .ok (relDict v p u) := by
  unfold pangolinApiAttempt
  repeat' split
  all_goals first
    | exact Or.inl ⟨_, rfl⟩
    | exact Or.inr ⟨_, _, _, rfl⟩

theorem articApiAttempt_shape (w : World) :
    (∃ e, articApiAttempt w = .error e) ∨
      ∃ v p u, articApiAttempt w = .ok (relDict v p u) := by
  unfold articApiAttempt
  repeat' split
  all_goals first
    | exact Or.inl ⟨_, rfl⟩
    | exact Or.inr ⟨_, _, _, rfl⟩

theorem pangolinScanResult_shape (d : Doc) :
    (∃ m, pangolinScanResult d = errDict m) ∨
      ∃ v p u, pangolinScanResult d = relDict v p u := by
  unfold pangolinScanResult
  split
  · exact Or.inl ⟨_, rfl⟩
  · exact Or.inr ⟨_, _, _, rfl⟩

theorem okScan_close (d : Doc) :
    (∃ e, (Except.ok (pangolinScanResult d) : Except String PyDict) = .error e) ∨
      (∃ m, (Except.ok (pangolinScanResult d) : Except String PyDict) = .ok (errDict m)) ∨
      ∃ v p u, (Except.ok (pangolinScanResult d) : Except String PyDict) = .ok (relDict v p u) := by
  rcases pangolinScanResult_shape d with ⟨m, hm⟩ | ⟨v, p, u, hm⟩
  · exact Or.inr (Or.inl ⟨m, by rw [hm]⟩)
  · exact Or.inr (Or.inr ⟨v, p, u, by rw [hm]⟩)

theorem pangolinTagsAttempt_shape (w : World) :
    (∃ e, pangolinTagsAttempt w = .error e) ∨
      (∃ m, pangolinTagsAttempt w = .ok (errDict m)) ∨
      ∃ v p u, pangolinTagsAttempt w = .ok (relDict v p u) := by
  unfold pangolinTagsAttempt
  dsimp only
  repeat' split
  all_goals first
    | exact Or.inl ⟨_, rfl⟩
    | exact Or.inr (Or.inl ⟨_, rfl⟩)
    | exact Or.inr (Or.inr ⟨_, _, _, rfl⟩)
    | exact okScan_close _

theorem okTags_close {w : World}
    (h : (∃ e, pangolinTagsAttempt w = .error e) ∨
      (∃ m, pangolinTagsAttempt w = .ok (errDict m)) ∨
      ∃ v p u, pangolinTagsAttempt w = .ok (relDict v p u)) :
    (∃ e, pangolinTagsAttempt w = .error e) ∨
      (∃ m, pangolinTagsAttempt w = .ok (errDict m)) ∨
      ∃ v p u, pangolinTagsAttempt w = .ok (relDict v p u) := h

theorem pangolinHtmlAttempt_shape (w : World) :
    (∃ e, pangolinHtmlAttempt w = .error e) ∨
      (∃ m, pangolinHtmlAttempt w = .ok (errDict m)) ∨
      ∃ v p u, pangolinHtmlAttempt w = .ok (relDict v p u) := by
  unfold pangolinHtmlAttempt
  dsimp only
  repeat' split
  all_goals first
    | exact Or.inl ⟨_, rfl⟩
    | exact Or.inr (Or.inl ⟨_, rfl⟩)
    | exact Or.inr (Or.inr ⟨_, _, _, rfl⟩)
    | exact pangolinTagsAttempt_shape w

theorem check_pangolin_version_shape (w : World) :
    (∃ m, check_pangolin_version w = errDict m) ∨
      ∃ v p u, check_pangolin_version w = relDict v p u := by
  unfold check_pangolin_version
  rcases pangolinApiAttempt_shape w with ⟨e, he⟩ | ⟨v, p, u, hvpu⟩
  · rw [he]
    rcases pangolinHtmlAttempt_shape w with ⟨e2, he2⟩ | ⟨m, hm⟩ | ⟨v, p, u, hvpu⟩
    · rw [he2]
      exact Or.inl ⟨_, rfl⟩
    · rw [hm]
      exact Or.inl ⟨m, rfl⟩
    · rw [hvpu]
      exact Or.inr ⟨v, p, u, rfl⟩
  · rw [hvpu]
    exact Or.inr ⟨v, p, u, rfl⟩

theorem check_artic_version_shape (w : World) :
    (∃ m, check_artic_version w = errDict m) ∨
      ∃ v p u, check_artic_version w = relDict v p u := by
  unfold check_artic_version
  rcases articApiAttempt_shape w with ⟨e, he⟩ | ⟨v, p, u, hvpu⟩
  · rw [he]
    exact Or.inl ⟨_, rfl⟩
  · rw [hvpu]
    exact Or.inr ⟨v, p, u, rfl⟩

theorem sarsReport_shape (versions : List String) :
    (∃ m, sarsReport versions = errDict m) ∨
      ∃ latest rest, sarsReport versions =
        [("latest_version", Val.str latest), ("all_versions", Val.strList (latest :: rest)),
         ("url", Val.str (sarsUrl ++ "/" ++ latest))] := by
  cases versions with
  | nil => exact Or.inl ⟨_, rfl⟩
  | cons latest rest => exact Or.inr ⟨latest, rest, rfl⟩

theorem sarsAttempt_shape (w : World) :
    (∃ e, sarsAttempt w = .error e) ∨
      ∃ versions, sarsAttempt w = .ok (sarsReport (sortDesc sortKey versions)) := by
  unfold sarsAttempt
  dsimp only
  repeat' split
  all_goals first
    | exact Or.inl ⟨_, rfl⟩
    | exact Or.inr ⟨_, rfl⟩

theorem check_artic_sarscov2_primers_shape (w : World) :
    (∃ m, check_artic_sarscov2_primers w = errDict m) ∨
      ∃ latest rest, check_artic_sarscov2_primers w =
        [("latest_version", Val.str latest), ("all_versions", Val.strList (latest :: rest)),
         ("url", Val.str (sarsUrl ++ "/" ++ latest))] := by
  unfold check_artic_sarscov2_primers
  rcases sarsAttempt_shape w with ⟨e, he⟩ | ⟨versions, hv⟩
  · rw [he]
    exact Or.inl ⟨_, rfl⟩
  · rw [hv]
    exact sarsReport_shape _

theorem ncovAttempt_shape (w : World) :
    (∃ e, ncovAttempt w = .error e) ∨
      (∃ m, ncovAttempt w = .ok (errDict m)) ∨
      ∃ vs, ncovAttempt w = .ok [("all_versions", Val.strList vs), ("url", Val.str ncovUrl)] := by
  unfold ncovAttempt
  dsimp only
  repeat' split
  all_goals first
    | exact Or.inl ⟨_, rfl⟩
    | exact Or.inr (Or.inl ⟨_, rfl⟩)
    | exact Or.inr (Or.inr ⟨_, rfl⟩)

theorem check_artic_ncov2019_primers_shape (w : World) :
    (∃ m, check_artic_ncov2019_primers w = errDict m) ∨
      ∃ vs, check_artic_ncov2019_primers w =
        [("all_versions", Val.strList vs), ("url", Val.str ncovUrl)] := by
  unfold check_artic_ncov2019_primers
  rcases ncovAttempt_shape w with ⟨e, he⟩ | ⟨m, hm⟩ | ⟨vs, hv⟩
  · rw [he]
    exact Or.inl ⟨_, rfl⟩
  · rw [hm]
    exact Or.inl ⟨m, rfl⟩
  · rw [hv]
    exact Or.inr ⟨vs, rfl⟩

/-! ## `main` never raises -/

theorem releaseReport_errDict (m : String) :
    releaseReport (errDict m) = .ok ["  " ++ m] := rfl

theorem releaseReport_relDict (v p u : String) :
    releaseReport (relDict v p u) =
      .ok ["  Latest version: " ++ v, "  Published date: " ++ p, "  URL: " ++ u] := rfl

theorem schemesReport_errDict (m : String) :
    schemesReport (errDict m) = .ok ["  " ++ m] := rfl

theorem schemesReport_ncov (vs : List String) :
    ∃ lines, schemesReport [("all_versions", Val.strList vs), ("url", Val.str ncovUrl)] =
      .ok lines := by
  cases vs with
  | nil => exact ⟨_, rfl⟩
  | cons v rest => exact ⟨_, rfl⟩

theorem releaseReport_ok_of_shape {d : PyDict}
    (h : (∃ m, d = errDict m) ∨ ∃ v p u, d = relDict v p u) :
    ∃ lines, releaseReport d = .ok lines := by
  rcases h with ⟨m, hm⟩ | ⟨v, p, u, hvpu⟩
  · exact ⟨_, by rw [hm, releaseReport_errDict]⟩
  · exact ⟨_, by rw [hvpu, releaseReport_relDict]⟩

theorem mainRun_ok (w : World) : ∃ lines, mainRun w = .ok lines := by
  rcases releaseReport_ok_of_shape (check_pangolin_version_shape w) with ⟨l1, hl1⟩
  rcases releaseReport_ok_of_shape (check_artic_version_shape w) with ⟨l2, hl2⟩
  have h3 : ∃ l3, schemesReport (check_artic_ncov2019_primers w) = .ok l3 := by
    rcases check_artic_ncov2019_primers_shape w with ⟨m, hm⟩ | ⟨vs, hv⟩
    · exact ⟨_, by rw [hm, schemesReport_errDict]⟩
    · rcases schemesReport_ncov vs with ⟨l3, hl3⟩
      exact ⟨l3, by rw [hv, hl3]⟩
  rcases h3 with ⟨l3, hl3⟩
  refine ⟨([eq60, "CHECKING LATEST VERSIONS OF SARS-CoV-2 TOOLS", eq60,
            "\n1. Pangolin Repository", dash60] ++ l1 ++
           ["\n2. ARTIC Field Bioinformatics", dash60] ++ l2 ++
           ["\n3. ARTIC nCoV-2019 Primer Schemes", dash60] ++ l3 ++
           ["\n" ++ eq60]), ?_⟩
  unfold mainRun
  dsimp only
  rw [hl1, hl2, hl3]

/-! ## `main` depends only on the three pipelines it calls -/

theorem mainRun_congr {w w' : World}
    (h1 : check_pangolin_version w' = check_pangolin_version w)
    (h2 : check_artic_version w' = check_artic_version w)
    (h3 : check_artic_ncov2019_primers w' = check_artic_ncov2019_primers w) :
    mainRun w' = mainRun w := by
  unfold mainRun
  rw [h1, h2, h3]

theorem pangolinApiAttempt_congr {w w' : World}
    (hf : w'.fetch pangolinApiUrl = w.fetch pangolinApiUrl)
    (hd : w'.parseApiDate = w.parseApiDate) :
    pangolinApiAttempt w' = pangolinApiAttempt w := by
  unfold pangolinApiAttempt
  rw [hf]
  simp only [hd]

theorem pangolinTagsAttempt_congr {w w' : World}
    (hf : w'.fetch pangolinTagsUrl = w.fetch pangolinTagsUrl)
    (hiso : w'.parseIsoDate = w.parseIsoDate) :
    pangolinTagsAttempt w' = pangolinTagsAttempt w := by
  unfold pangolinTagsAttempt
  rw [hf]
  simp only [hiso]

theorem pangolinHtmlAttempt_congr {w w' : World}
    (hf1 : w'.fetch pangolinReleasesUrl = w.fetch pangolinReleasesUrl)
    (hf2 : w'.fetch pangolinTagsUrl = w.fetch pangolinTagsUrl)
    (hiso : w'.parseIsoDate = w.parseIsoDate) :
    pangolinHtmlAttempt w' = pangolinHtmlAttempt w := by
  unfold pangolinHtmlAttempt
  rw [hf1, pangolinTagsAttempt_congr hf2 hiso]
  simp only [hiso]

theorem check_pangolin_version_congr {w w' : World}
    (hfa : w'.fetch pangolinApiUrl = w.fetch pangolinApiUrl)
    (hf1 : w'.fetch pangolinReleasesUrl = w.fetch pangolinReleasesUrl)
    (hf2 : w'.fetch pangolinTagsUrl = w.fetch pangolinTagsUrl)
    (hd : w'.parseApiDate = w.parseApiDate)
    (hiso : w'.parseIsoDate = w.parseIsoDate) :
    check_pangolin_version w' = check_pangolin_version w := by
  unfold check_pangolin_version
  rw [pangolinApiAttempt_congr hfa hd, pangolinHtmlAttempt_congr hf1 hf2 hiso]

theorem check_artic_version_congr {w w' : World}
    (hf : w'.fetch articApiUrl = w.fetch articApiUrl)
    (hd : w'.parseApiDate = w.parseApiDate) :
    check_artic_version w' = check_artic_version w := by
  unfold check_artic_version articApiAttempt
  rw [hf]
  simp only [hd]

theorem check_artic_ncov2019_primers_congr {w w' : World}
    (hf : w'.fetch ncovUrl = w.fetch ncovUrl) :
    check_artic_ncov2019_primers w' = check_artic_ncov2019_primers w := by
  unfold check_artic_ncov2019_primers ncovAttempt
  rw [hf]

theorem mainRun_ignores_sars {w w' : World}
    (hd : w'.parseApiDate = w.parseApiDate) (hiso : w'.parseIsoDate = w.parseIsoDate)
    (hf : ∀ u, u ≠ sarsUrl → w'.fetch u = w.fetch u) :
    mainRun w' = mainRun w := by
  refine mainRun_congr ?_ ?_ ?_
  · exact check_pangolin_version_congr (hf _ (by decide)) (hf _ (by decide)) (hf _ (by decide))
      hd hiso
  · exact check_artic_version_congr (hf _ (by decide)) hd
  · exact check_artic_ncov2019_primers_congr (hf _ (by decide))

/-! ## Branch-level facts about the pipelines -/

theorem raiseForStatus_ok {r : HttpResponse} (h : r.ok = true) :
    raiseForStatus r = .ok () := by
  simp [raiseForStatus, h]

theorem pangolin_api_falls_through {w : World} {e : String} {d : PyDict}
    (hapi : pangolinApiAttempt w = .error e) (hhtml : pangolinHtmlAttempt w = .ok d) :
    check_pangolin_version w = d := by
  unfold check_pangolin_version
  rw [hapi, hhtml]

theorem pangolin_html_raises {w : World} {e nested : String}
    (hapi : pangolinApiAttempt w = .error e) (hhtml : pangolinHtmlAttempt w = .error nested) :
    check_pangolin_version w =
      errDict ("Failed to retrieve Pangolin version: " ++ e ++ ", then " ++ nested) := by
  unfold check_pangolin_version
  rw [hapi, hhtml]

theorem pangolin_no_version_tag {w : World} {e : String} {r : HttpResponse} {re : Elem}
    (hapi : pangolinApiAttempt w = .error e)
    (hrel : w.fetch pangolinReleasesUrl = .ok r) (hok : r.ok = true)
    (hre : firstHit (fun s => (r.doc.select s).head?) pangolinSelectors = some re)
    (htag : firstHit re.selectOne versionTagSelectors = none) :
    check_pangolin_version w = errDict "Could not find version tag" := by
  have hhtml : pangolinHtmlAttempt w = .ok (errDict "Could not find version tag") := by
    unfold pangolinHtmlAttempt
    rw [hrel]
    dsimp only
    rw [raiseForStatus_ok hok]
    dsimp only
    rw [hre]
    dsimp only
    rw [htag]
  exact pangolin_api_falls_through hapi hhtml

theorem pangolin_html_finds_nothing {w : World} {e : String} {r r2 : HttpResponse}
    (hapi : pangolinApiAttempt w = .error e)
    (hrel : w.fetch pangolinReleasesUrl = .ok r) (hok : r.ok = true)
    (hre : firstHit (fun s => (r.doc.select s).head?) pangolinSelectors = none)
    (htags : w.fetch pangolinTagsUrl = .ok r2) (hok2 : r2.ok = true)
    (hbox : (r2.doc.select "div.Box-row").head? = none)
    (hscan : pangolinLinkScan r2.doc = []) :
    check_pangolin_version w = errDict "Could not find Pangolin version information" := by
  have htagsres : pangolinTagsAttempt w =
      .ok (errDict "Could not find Pangolin version information") := by
    unfold pangolinTagsAttempt
    rw [htags]
    dsimp only
    rw [raiseForStatus_ok hok2]
    dsimp only
    rw [hbox]
    dsimp only
    unfold pangolinScanResult
    rw [hscan]
  have hhtml : pangolinHtmlAttempt w =
      .ok (errDict "Could not find Pangolin version information") := by
    unfold pangolinHtmlAttempt
    rw [hrel]
    dsimp only
    rw [raiseForStatus_ok hok]
    dsimp only
    rw [hre]
    dsimp only
    exact htagsres
  exact pangolin_api_falls_through hapi hhtml

theorem sars_result {w : World} {resp : HttpResponse}
    (hfetch : w.fetch sarsUrl = .ok resp) (hok : resp.ok = true) :
    check_artic_sarscov2_primers w =
      sarsReport (sortDesc sortKey
        (if (sarsFiltered resp.doc.boxRows).isEmpty then sarsAllDirs resp.doc.boxRows
         else sarsFiltered resp.doc.boxRows)) := by
  unfold check_artic_sarscov2_primers sarsAttempt
  rw [hfetch]
  dsimp only
  rw [raiseForStatus_ok hok]

theorem sarsFiltered_nil {rows : List Row} (h : sarsAllDirs rows = []) :
    sarsFiltered rows = [] := by
  unfold sarsAllDirs at h
  unfold sarsFiltered
  rw [List.filterMap_eq_nil_iff] at h ⊢
  intro row hrow
  have hthis := h row hrow
  by_cases hsvg : row.hasDirSvg
  · cases hlink : row.link with
    | none => simp [hsvg, hlink]
    | some nameElement =>
      exfalso
      rw [hlink] at hthis
      simp [hsvg] at hthis
  · simp [hsvg]

theorem sortDesc_ne_nil {k : α → List ℚ} {l : List α} (h : l ≠ []) :
    sortDesc k l ≠ [] := by
  intro hnil
  have hperm := sortDesc_perm k l
  rw [hnil] at hperm
  exact h (hperm.symm.eq_nil)

theorem sarsReport_cons_ne_err (latest : List String) (v : String) (m : String) :
    sarsReport (v :: latest) ≠ errDict m := by
  simp [sarsReport, errDict]

theorem ncov_strategy2_result {w : World} {resp : HttpResponse}
    (hfetch : w.fetch ncovUrl = .ok resp) (hok : resp.ok = true)
    (hlinks : dedupPreserve (ncovLinkNames resp.doc) = [])
    (hrole : ncovRoleNames resp.doc ≠ []) :
    check_artic_ncov2019_primers w =
      [("all_versions", Val.strList (ncovTrySort (ncovRoleNames resp.doc))),
       ("url", Val.str ncovUrl)] := by
  unfold check_artic_ncov2019_primers ncovAttempt
  rw [hfetch]
  dsimp only
  rw [raiseForStatus_ok hok]
  dsimp only
  rw [hlinks]
  simp [List.isEmpty_iff, hrole]

theorem ncov_strategy3_result {w : World} {resp : HttpResponse}
    (hfetch : w.fetch ncovUrl = .ok resp) (hok : resp.ok = true)
    (hlinks : dedupPreserve (ncovLinkNames resp.doc) = [])
    (hrole : ncovRoleNames resp.doc = [])
    (hclass : ncovClassNames resp.doc ≠ []) :
    check_artic_ncov2019_primers w =
      [("all_versions", Val.strList (ncovTrySort (ncovClassNames resp.doc))),
       ("url", Val.str ncovUrl)] := by
  unfold check_artic_ncov2019_primers ncovAttempt
  rw [hfetch]
  dsimp only
  rw [raiseForStatus_ok hok]
  dsimp only
  rw [hlinks, hrole]
  simp [List.isEmpty_iff, hclass]

/-! ## Claims -/

/-- C2, counterexample: the sort key of `"V5.3"` is not `[5.0, 3.0]` — the
regex alternative `\d+\.\d+` matches `5.3` as one token, so the key has a
single component. -/
theorem c2_counterexample : sortKey "V5.3" ≠ [(5 : ℚ), (3 : ℚ)] := by decide

/-- C2, amended: the sort key is the left-to-right sequence of the matches
of `\d+\.\d+|\d+`, each converted to a number, so a dotted pair of digit
groups forms a single component: `sortKey "V5.3" = [5.3]` and
`sortKey "5" = [5.0]`. -/
theorem c2_sortKey_matches :
    (∀ x : String, sortKey x = (pyFindall x).map pyFloatVal) ∧
    sortKey "V5.3" = [mkRat 53 10] ∧ sortKey "5" = [(5 : ℚ)] :=
  ⟨sortKey_eq_floatVals, by decide, by decide⟩

/-- C3, counterexample: the sort key of `"latest"` is not `[0.0]` — a label
with no digit groups yields no regex matches, so its key is the empty
list. -/
theorem c3_counterexample : sortKey "latest" ≠ [(0 : ℚ)] := by decide

/-- C3, amended: a label with no digit groups has the *empty* sort key
(`sortKey "latest" = []`), and such labels do sort last: the descending
order is the sorted non-empty-key labels followed by the empty-key labels
in their original order. -/
theorem c3_empty_keys :
    sortKey "latest" = [] ∧
    (∀ s : String, s.toList.all (fun c => !c.isDigit) = true → sortKey s = []) ∧
    (∀ l : List String, orderDescending l =
      orderDescending (l.filter (fun x => !(sortKey x).isEmpty)) ++
        l.filter (fun x => (sortKey x).isEmpty)) :=
  ⟨by decide, fun _ h => sortKey_of_no_digit h, fun l => sortDesc_empty_keys_last sortKey l⟩

/-- C3, witness: the amended claim applied to the concrete label
`"releases"` and to the list `["latest", "V2"]`. -/
theorem c3_empty_keys_witness :
    sortKey "releases" = [] ∧
    orderDescending ["latest", "V2"] =
      orderDescending (["latest", "V2"].filter (fun x => !(sortKey x).isEmpty)) ++
        ["latest", "V2"].filter (fun x => (sortKey x).isEmpty) :=
  ⟨c3_empty_keys.2.1 "releases" (by decide), c3_empty_keys.2.2 ["latest", "V2"]⟩

/-- C6: `orderDescending` stable-sorts by sort key in descending order —
the concrete example holds, the output is a permutation of the input, no
later element has a strictly greater key than an earlier one, and labels
with equal keys retain their relative input order. -/
theorem c6_orderDescending_props :
    orderDescending ["V1", "V5.3", "V2"] = ["V5.3", "V2", "V1"] ∧
    (∀ l : List String, List.Perm (orderDescending l) l) ∧
    (∀ l : List String,
      List.Pairwise (fun a b => keyLt (sortKey a) (sortKey b) = false) (orderDescending l)) ∧
    (∀ (l : List String) (q : List ℚ),
      (orderDescending l).filter (fun x => decide (sortKey x = q)) =
        l.filter (fun x => decide (sortKey x = q))) :=
  ⟨by decide, fun l => sortDesc_perm sortKey l, fun l => sortDesc_pairwise sortKey l,
   fun l q => sortDesc_stable sortKey l q⟩

/-- C9: every regex match passes the `isdigit` guard after one dot is
removed (so the `else 0` branch is unreachable), the key computation never
raises for any string, and the guarded sort of
`check_artic_ncov2019_primers` always sorts — its bare `except` handler is
never exercised. -/
theorem c9_else_branch_unreachable :
    (∀ x : String, ∀ n ∈ pyFindall x, pyIsdigit (pyRemoveDotOnce n) = true) ∧
    (∀ n : String, keyCompE n = Except.ok (keyComp n)) ∧
    (∀ vs : List String, ncovTrySort vs = sortDesc sortKey vs) :=
  ⟨pyFindall_guard, keyCompE_eq, ncovTrySort_eq⟩

/-- C9, witness: the guard holds for the match `"5.3"` of `"V5.3"`, and the
guarded sort sorts the concrete list `["V2", "latest"]`. -/
theorem c9_witness :
    pyIsdigit (pyRemoveDotOnce "5.3") = true ∧
    ncovTrySort ["V2", "latest"] = sortDesc sortKey ["V2", "latest"] :=
  ⟨c9_else_branch_unreachable.1 "V5.3" "5.3" (by decide),
   c9_else_branch_unreachable.2.2 ["V2", "latest"]⟩

/-- C7: for any fetched document, an empty version-pattern filter makes the
pipeline fall back to all directory names (sorted), the
`"No primer versions found"` failure occurs exactly when there are no
directory-like rows at all, and a listing with `V1` and `V2` reports
`latest_version = "V2"` and `all_versions = ["V2", "V1"]`. -/
theorem c7_sars_fallback :
    (∀ (w : World) (resp : HttpResponse), w.fetch sarsUrl = .ok resp → resp.ok = true →
      (sarsFiltered resp.doc.boxRows = [] →
        check_artic_sarscov2_primers w =
          sarsReport (orderDescending (sarsAllDirs resp.doc.boxRows))) ∧
      (check_artic_sarscov2_primers w = errDict "No primer versions found" ↔
        sarsAllDirs resp.doc.boxRows = [])) ∧
    check_artic_sarscov2_primers (sarsWorld sarsDocV12) =
      [("latest_version", Val.str "V2"), ("all_versions", Val.strList ["V2", "V1"]),
       ("url", Val.str
         "https://github.com/artic-network/primer-schemes/tree/master/sars-cov-2/V2")] := by
  constructor
  · intro w resp hfetch hok
    have hres := sars_result hfetch hok
    constructor
    · intro hfil
      rw [hres, hfil]
      simp only [List.isEmpty_nil, if_true]
      rfl
    · constructor
      · intro herr
        by_contra hne
        have hVne : (if (sarsFiltered resp.doc.boxRows).isEmpty then
            sarsAllDirs resp.doc.boxRows else sarsFiltered resp.doc.boxRows) ≠ [] := by
          cases hfil : (sarsFiltered resp.doc.boxRows).isEmpty with
          | true =>
            simp only [hfil, if_true]
            exact hne
          | false =>
            simp only [hfil, Bool.false_eq_true, if_false]
            intro h0
            rw [h0] at hfil
            simp at hfil
        have hsne := sortDesc_ne_nil (k := sortKey) hVne
        cases hsort : sortDesc sortKey (if (sarsFiltered resp.doc.boxRows).isEmpty then
            sarsAllDirs resp.doc.boxRows else sarsFiltered resp.doc.boxRows) with
        | nil => exact hsne hsort
        | cons v vs =>
          rw [hres, hsort] at herr
          exact sarsReport_cons_ne_err vs v _ herr
      · intro hall
        have hfil := sarsFiltered_nil hall
        rw [hres, hfil, hall]
        rfl
  · decide

/-- C7, witness: applied to a listing whose directory names `foo`, `bar`
all fail the version pattern — the pipeline reports all of them. -/
theorem c7_sars_fallback_witness :
    check_artic_sarscov2_primers (sarsWorld sarsDocPlain) =
      sarsReport (orderDescending (sarsAllDirs (htmlResp sarsDocPlain).doc.boxRows)) :=
  ((c7_sars_fallback.1 (sarsWorld sarsDocPlain) (htmlResp sarsDocPlain) rfl rfl).1 (by decide))

/-- C4, counterexample: with the API down and a release header present but
yielding no version tag, the pipeline returns the `"Could not find version
tag"` failure — even though the tags page of the same world carries a
perfectly extractable tag `v9.9`, which the same pipeline does report when
no release header is found. -/
theorem c4_counterexample :
    check_pangolin_version pangolinHeaderNoTagWorld = errDict "Could not find version tag" ∧
    check_pangolin_version pangolinNoHeaderWorld =
      relDict "v9.9" "Unknown" (pangolinTagBaseUrl ++ "v9.9") :=
  ⟨by decide, by decide⟩

/-- C4, amended: a raised exception in the API strategy falls through to
the HTML strategies, but when a release header is located and none of the
version-tag selectors matches inside it, the pipeline returns the `"Could
not find version tag"` failure at that point, whatever the tags page
holds, rather than proceeding to the tags-page and link-scan
strategies. -/
theorem c4_no_tag_stops_pipeline :
    (∀ (w : World) (e : String) (d : PyDict), pangolinApiAttempt w = .error e →
      pangolinHtmlAttempt w = .ok d → check_pangolin_version w = d) ∧
    (∀ (w : World) (e : String) (r : HttpResponse) (re : Elem),
      pangolinApiAttempt w = .error e →
      w.fetch pangolinReleasesUrl = .ok r → r.ok = true →
      firstHit (fun s => (r.doc.select s).head?) pangolinSelectors = some re →
      firstHit re.selectOne versionTagSelectors = none →
      check_pangolin_version w = errDict "Could not find version tag") :=
  ⟨fun _ _ _ ha hh => pangolin_api_falls_through ha hh,
   fun _ _ _ _ ha h1 h2 h3 h4 => pangolin_no_version_tag ha h1 h2 h3 h4⟩

/-- C4, witness: the amended claim applied to the concrete worlds. -/
theorem c4_no_tag_stops_pipeline_witness :
    check_pangolin_version pangolinHeaderNoTagWorld = errDict "Could not find version tag" ∧
    check_pangolin_version pangolinNoHeaderWorld =
      relDict "v9.9" "Unknown" (pangolinTagBaseUrl ++ "v9.9") :=
  ⟨c4_no_tag_stops_pipeline.2 pangolinHeaderNoTagWorld "API down" (htmlResp relDocWithHeader)
     bareElem (by decide) rfl rfl rfl rfl,
   c4_no_tag_stops_pipeline.1 pangolinNoHeaderWorld "API down"
     (relDict "v9.9" "Unknown" (pangolinTagBaseUrl ++ "v9.9")) (by decide) (by decide)⟩

/-- C5, counterexample: when the HTML strategies find nothing without
raising, the returned failure is the fixed message `"Could not find
Pangolin version information"` — it is the same whatever the Strategy-A
error was, and does not contain that error. -/
theorem c5_counterexample :
    check_pangolin_version (pangolinEmptyPagesWorld "alpha error") =
      errDict "Could not find Pangolin version information" ∧
    check_pangolin_version (pangolinEmptyPagesWorld "beta error") =
      errDict "Could not find Pangolin version information" ∧
    strContains "Could not find Pangolin version information" "alpha error" = false :=
  ⟨by decide, by decide, by decide⟩

/-- C5, amended: the failure message concatenates the Strategy-A error and
the nested error exactly when the nested HTML attempt raises; when the
HTML strategies complete without raising but find nothing, the failure is
a fixed message that does not mention the Strategy-A error. -/
theorem c5_concatenation_only_on_raise :
    (∀ (w : World) (e nested : String), pangolinApiAttempt w = .error e →
      pangolinHtmlAttempt w = .error nested →
      check_pangolin_version w =
        errDict ("Failed to retrieve Pangolin version: " ++ e ++ ", then " ++ nested)) ∧
    (∀ (w : World) (e : String) (r r2 : HttpResponse),
      pangolinApiAttempt w = .error e →
      w.fetch pangolinReleasesUrl = .ok r → r.ok = true →
      firstHit (fun s => (r.doc.select s).head?) pangolinSelectors = none →
      w.fetch pangolinTagsUrl = .ok r2 → r2.ok = true →
      (r2.doc.select "div.Box-row").head? = none →
      pangolinLinkScan r2.doc = [] →
      check_pangolin_version w = errDict "Could not find Pangolin version information") :=
  ⟨fun _ _ _ ha hh => pangolin_html_raises ha hh,
   fun _ _ _ _ ha h1 h2 h3 h4 h5 h6 h7 =>
     pangolin_html_finds_nothing ha h1 h2 h3 h4 h5 h6 h7⟩

/-- C5, witness: the amended claim applied to concrete worlds — the
raise case at a world where every fetch raises, and the find-nothing case
at a world with empty pages. -/
theorem c5_concatenation_witness :
    check_pangolin_version failWorld =
      errDict "Failed to retrieve Pangolin version: down, then down" ∧
    check_pangolin_version (pangolinEmptyPagesWorld "alpha error") =
      errDict "Could not find Pangolin version information" :=
  ⟨c5_concatenation_only_on_raise.1 failWorld "down" "down" (by decide) (by decide),
   c5_concatenation_only_on_raise.2 (pangolinEmptyPagesWorld "alpha error") "alpha error"
     (htmlResp emptyDoc) (htmlResp emptyDoc) (by decide) rfl rfl rfl rfl rfl rfl rfl⟩

/-- C1, counterexample: two worlds that differ only in the sars-cov-2
listing give different `check_artic_sarscov2_primers` results, yet `main`
produces identical output — `main` neither performs the primer-set-A
lookup nor prints its result (it calls only the other three pipelines). -/
theorem c1_counterexample :
    check_artic_sarscov2_primers (sarsWorld sarsDocV12) ≠
      check_artic_sarscov2_primers failWorld ∧
    mainRun (sarsWorld sarsDocV12) = mainRun failWorld :=
  ⟨by decide, by decide⟩

/-- C1, amended: `main` performs the package-release, tool-release and
primer-set-B lookups and prints each of their results; the primer-set-A
lookup (`check_artic_sarscov2_primers`) is never invoked — `main`'s output
is unchanged under any change to the sars-cov-2 resource.  The second
conjunct shows a full run printing the three pipeline results. -/
theorem c1_main_three_lookups :
    (∀ (w w' : World), w'.parseApiDate = w.parseApiDate → w'.parseIsoDate = w.parseIsoDate →
      (∀ u, u ≠ sarsUrl → w'.fetch u = w.fetch u) → mainRun w' = mainRun w) ∧
    mainRun failWorld = .ok
      [eq60, "CHECKING LATEST VERSIONS OF SARS-CoV-2 TOOLS", eq60,
       "\n1. Pangolin Repository", dash60,
       "  Failed to retrieve Pangolin version: down, then down",
       "\n2. ARTIC Field Bioinformatics", dash60,
       "  Failed to retrieve ARTIC version: down",
       "\n3. ARTIC nCoV-2019 Primer Schemes", dash60,
       "  Failed to retrieve ARTIC nCoV-2019 primers: down",
       "\n" ++ eq60] :=
  ⟨fun _ _ hd hiso hf => mainRun_ignores_sars hd hiso hf, by decide⟩

/-- C1, witness: the amended claim applied to the two concrete worlds of
the counterexample. -/
theorem c1_main_three_lookups_witness :
    mainRun (sarsWorld sarsDocV12) = mainRun failWorld :=
  c1_main_three_lookups.1 failWorld (sarsWorld sarsDocV12) rfl rfl
    (fun u hu => by simp [sarsWorld, failWorld, hu])

/-- C8: for every collaborator behaviour, each of the four pipeline
functions returns either a failure record or its success record and never
propagates an exception; `main` always completes (`mainRun` is always
`.ok`); and `main`'s output depends only on the three pipeline results it
reports, so a failure in one pipeline cannot affect the others'
sections. -/
theorem c8_never_raises :
    (∀ w : World, (∃ m, check_pangolin_version w = errDict m) ∨
      ∃ v p u, check_pangolin_version w = relDict v p u) ∧
    (∀ w : World, (∃ m, check_artic_version w = errDict m) ∨
      ∃ v p u, check_artic_version w = relDict v p u) ∧
    (∀ w : World, (∃ m, check_artic_sarscov2_primers w = errDict m) ∨
      ∃ latest rest, check_artic_sarscov2_primers w =
        [("latest_version", Val.str latest), ("all_versions", Val.strList (latest :: rest)),
         ("url", Val.str (sarsUrl ++ "/" ++ latest))]) ∧
    (∀ w : World, (∃ m, check_artic_ncov2019_primers w = errDict m) ∨
      ∃ vs, check_artic_ncov2019_primers w =
        [("all_versions", Val.strList vs), ("url", Val.str ncovUrl)]) ∧
    (∀ w : World, ∃ lines, mainRun w = .ok lines) ∧
    (∀ w w' : World, check_pangolin_version w' = check_pangolin_version w →
      check_artic_version w' = check_artic_version w →
      check_artic_ncov2019_primers w' = check_artic_ncov2019_primers w →
      mainRun w' = mainRun w) :=
  ⟨check_pangolin_version_shape, check_artic_version_shape,
   check_artic_sarscov2_primers_shape, check_artic_ncov2019_primers_shape,
   mainRun_ok, fun _ _ h1 h2 h3 => mainRun_congr h1 h2 h3⟩

/-- C8, witness: the independence part applied to two concrete worlds whose
three reported pipeline results agree. -/
theorem c8_never_raises_witness :
    mainRun (sarsWorld sarsDocV12) = mainRun (sarsWorld sarsDocPlain) :=
  c8_never_raises.2.2.2.2.2 (sarsWorld sarsDocPlain) (sarsWorld sarsDocV12)
    (by decide) (by decide) (by decide)

/-- C10: first-seen de-duplication and the exclusion of `..`, `.` and
`nCoV-2019` are applied only to the hyperlink-scan strategy; the second
(and third) fallback strategies return their collected names unprocessed,
so those results can contain repeated and self-referential entries — as
the concrete runs show. -/
theorem c10_dedup_only_strategy_one :
    (∀ (w : World) (resp : HttpResponse), w.fetch ncovUrl = .ok resp → resp.ok = true →
      dedupPreserve (ncovLinkNames resp.doc) = [] → ncovRoleNames resp.doc ≠ [] →
      check_artic_ncov2019_primers w =
        [("all_versions", Val.strList (ncovTrySort (ncovRoleNames resp.doc))),
         ("url", Val.str ncovUrl)]) ∧
    check_artic_ncov2019_primers (ncovWorld ncovDocLinks) =
      [("all_versions", Val.strList ["V3", "V1"]), ("url", Val.str ncovUrl)] ∧
    check_artic_ncov2019_primers (ncovWorld ncovDocRole) =
      [("all_versions", Val.strList ["V1", "V1", ".."]), ("url", Val.str ncovUrl)] ∧
    check_artic_ncov2019_primers (ncovWorld ncovDocClass) =
      [("all_versions", Val.strList ["..", ""]), ("url", Val.str ncovUrl)] :=
  ⟨fun _ _ hf hok hl hr => ncov_strategy2_result hf hok hl hr,
   by decide, by decide, by decide⟩

/-- C10, witness: the strategy-2 statement applied to the concrete world
whose role rows hold `..`, `V1`, `V1`. -/
theorem c10_dedup_only_strategy_one_witness :
    check_artic_ncov2019_primers (ncovWorld ncovDocRole) =
      [("all_versions", Val.strList (ncovTrySort (ncovRoleNames (htmlResp ncovDocRole).doc))),
       ("url", Val.str ncovUrl)] :=
  c10_dedup_only_strategy_one.1 (ncovWorld ncovDocRole) (htmlResp ncovDocRole) rfl rfl
    (by decide) (by decide)
